import Mathlib

/-!
Verification of the multi-day trend and pattern-detection logic of the
whoop-mcp tool layer (recovery, sleep, strain tools).

JavaScript numbers are modelled as rationals (ℚ); optional / nullable JSON
fields as `Option ℚ`.  `Math.round` is modelled by `jsRound` (floor of
x + 1/2, which is how JS rounds halves toward positive infinity).  The
imperative accumulation loops of the tools are modelled as `List.foldl`
over explicit state structures mirroring the mutable variables; the
pattern-detection sections are modelled as list-building functions; the
rendered messages are modelled as `Pattern` constructors carrying the
numeric payloads that the source interpolates into the message strings.
-/

/-- js Math.round: round half toward positive infinity. -/
def jsRound (q : ℚ) : ℤ := ⌊q + 1/2⌋

/-- js Math.round(q * 10) / 10 : round to one decimal place. -/
def round1 (q : ℚ) : ℚ := (jsRound (q * 10) : ℚ) / 10

/-- Average of a list of rationals, as the source computes it:
reduce((a, b) => a + b, 0) / length. -/
def avgQ (l : List ℚ) : ℚ := l.sum / (l.length : ℚ)

/-! ## Maximal run of consecutive elements satisfying a predicate

The recovery and strain tools both compute, with a pair of mutable
counters, the length of the longest run of consecutive entries satisfying
a threshold predicate:

  for (const s of xs) \x7b if (p s) \x7b cur++; maxR = Math.max(maxR, cur); \x7d else cur = 0; \x7d
-/

/-- State-passing form of the two mutable counters of the source loop. -/
def maxRunGo {α : Type} (p : α → Bool) : List α → ℕ → ℕ → ℕ
  | [], maxR, _ => maxR
  | x :: xs, maxR, cur =>
    if p x then maxRunGo p xs (max maxR (cur + 1)) (cur + 1)
    else maxRunGo p xs maxR 0

/-- Length of the longest run of consecutive elements satisfying p,
as computed by the source loop (counters start at 0). -/
def maxRun {α : Type} (p : α → Bool) (xs : List α) : ℕ := maxRunGo p xs 0 0

/-- Declarative reference value: the maximum, over every suffix of the
list, of the length of the run of p-satisfying elements at its head. -/
def tailsMax {α : Type} (p : α → Bool) : List α → ℕ
  | [] => 0
  | x :: xs => max ((x :: xs).takeWhile p).length (tailsMax p xs)

/-- What it means for n to be the length of the longest contiguous
all-p run inside xs. -/
def IsLongestRun {α : Type} (p : α → Bool) (xs : List α) (n : ℕ) : Prop :=
  (∀ l, l <:+: xs → (∀ a ∈ l, p a = true) → l.length ≤ n) ∧
  ∃ l, l <:+: xs ∧ (∀ a ∈ l, p a = true) ∧ l.length = n

lemma takeWhile_length_le_tailsMax {α : Type} (p : α → Bool) (xs : List α) :
    (xs.takeWhile p).length ≤ tailsMax p xs := by
  cases xs with
  | nil => simp [tailsMax]
  | cons x xs => exact le_max_left _ _

lemma maxRunGo_eq {α : Type} (p : α → Bool) :
    ∀ (xs : List α) (m c : ℕ), c ≤ m →
      maxRunGo p xs m c = max m (max (c + (xs.takeWhile p).length) (tailsMax p xs)) := by
  intro xs
  induction xs with
  | nil =>
    intro m c hc
    simp only [maxRunGo, List.takeWhile_nil, List.length_nil, tailsMax]
    omega
  | cons x xs ih =>
    intro m c hc
    by_cases hp : p x
    · have h1 : c + 1 ≤ max m (c + 1) := le_max_right _ _
      have := ih (max m (c + 1)) (c + 1) h1
      simp only [maxRunGo, hp, if_true, this, List.takeWhile_cons, tailsMax,
        List.length_cons]
      omega
    · have := ih m 0 (Nat.zero_le m)
      have hle := takeWhile_length_le_tailsMax p xs
      simp only [maxRunGo, hp, if_false, this, List.takeWhile_cons, tailsMax,
        Bool.false_eq_true, List.length_nil]
      omega

lemma maxRun_eq_tailsMax {α : Type} (p : α → Bool) (xs : List α) :
    maxRun p xs = tailsMax p xs := by
  have h := maxRunGo_eq p xs 0 0 le_rfl
  have hle := takeWhile_length_le_tailsMax p xs
  simp only [maxRun, h]
  omega

lemma infix_of_infix_cons {α : Type} {l ys : List α} {a : α}
    (h : l <:+: ys) : l <:+: a :: ys := by
  obtain ⟨s, t, rfl⟩ := h
  exact ⟨a :: s, t, rfl⟩

lemma infix_cons_elim {α : Type} {l ys : List α} {a : α}
    (h : l <:+: a :: ys) : l <+: a :: ys ∨ l <:+: ys := by
  obtain ⟨s, t, he⟩ := h
  cases s with
  | nil =>
    left
    exact ⟨t, by simpa using he⟩
  | cons b s =>
    right
    have hb : b = a ∧ s ++ l ++ t = ys := by
      constructor
      · have := congrArg (fun zs => List.head? zs) he
        simpa using this
      · have := congrArg (fun zs => List.tail zs) he
        simpa using this
    exact hb.2 ▸ ⟨s, t, rfl⟩

lemma allP_prefix_length_le {α : Type} (p : α → Bool) :
    ∀ (l ys : List α), l <+: ys → (∀ a ∈ l, p a = true) →
      l.length ≤ (ys.takeWhile p).length := by
  intro l
  induction l with
  | nil => simp
  | cons a l ih =>
    intro ys hpre hall
    obtain ⟨t, rfl⟩ := hpre
    have hpa : p a = true := hall a (by simp)
    simp only [List.cons_append, List.takeWhile_cons, hpa, if_true,
      List.length_cons, Nat.add_le_add_iff_right]
    exact ih (l ++ t) ⟨t, rfl⟩ (fun b hb => hall b (by simp [hb]))

lemma tailsMax_upper {α : Type} (p : α → Bool) :
    ∀ (xs l : List α), l <:+: xs → (∀ a ∈ l, p a = true) →
      l.length ≤ tailsMax p xs := by
  intro xs
  induction xs with
  | nil =>
    intro l hinf _
    simp [List.eq_nil_of_infix_nil hinf, tailsMax]
  | cons x xs ih =>
    intro l hinf hall
    rcases infix_cons_elim hinf with hpre | hinf2
    · calc l.length ≤ ((x :: xs).takeWhile p).length :=
            allP_prefix_length_le p l (x :: xs) hpre hall
        _ ≤ tailsMax p (x :: xs) := le_max_left _ _
    · calc l.length ≤ tailsMax p xs := ih l hinf2 hall
        _ ≤ tailsMax p (x :: xs) := le_max_right _ _

lemma tailsMax_attained {α : Type} (p : α → Bool) :
    ∀ xs : List α, ∃ l, l <:+: xs ∧ (∀ a ∈ l, p a = true) ∧
      l.length = tailsMax p xs := by
  intro xs
  induction xs with
  | nil => exact ⟨[], by simp [tailsMax]⟩
  | cons x xs ih =>
    obtain ⟨l, hinf, hall, hlen⟩ := ih
    by_cases hc : tailsMax p xs ≤ ((x :: xs).takeWhile p).length
    · refine ⟨(x :: xs).takeWhile p, ?_, ?_, ?_⟩
      · obtain ⟨t, ht⟩ := List.takeWhile_prefix (l := x :: xs) p
        exact ⟨[], t, by simpa using ht⟩
      · intro a ha
        exact List.mem_takeWhile_imp ha
      · simp only [tailsMax]
        omega
    · refine ⟨l, infix_of_infix_cons hinf, hall, ?_⟩
      simp only [tailsMax]
      omega

/-- The loop of the source computes exactly the longest-run length. -/
theorem maxRun_isLongestRun {α : Type} (p : α → Bool) (xs : List α) :
    IsLongestRun p xs (maxRun p xs) := by
  rw [maxRun_eq_tailsMax]
  exact ⟨tailsMax_upper p xs, tailsMax_attained p xs⟩

/-! ## Recovery tool (src/tools/recovery.ts, multi-day branch)

Record shapes restricted to the fields the multi-day trend path reads. -/

/-- Fields of rec.score read by the recovery tool. -/
structure RecoveryScore where
  recovery_score : Option ℚ
  hrv_rmssd_milli : Option ℚ
  resting_heart_rate : Option ℚ
  spo2_percentage : Option ℚ
  deriving DecidableEq, Repr

/-- js object literal \x7b\x7d used as fallback for a missing score. -/
def emptyRecoveryScore : RecoveryScore := ⟨none, none, none, none⟩

/-- One element of the records array returned by getRecoveryV2. -/
structure RecoveryRecord where
  score : Option RecoveryScore
  deriving DecidableEq, Repr

/-- js: const s = rec.score || \x7b\x7d. -/
def scoreOf (r : RecoveryRecord) : RecoveryScore := r.score.getD emptyRecoveryScore

/-- js filter predicate: r.score?.recovery_score != null. -/
def hasRecScore (r : RecoveryRecord) : Bool := (scoreOf r).recovery_score.isSome

/-- js: records.filter(r => r.score?.recovery_score != null).map(r => r.score.recovery_score). -/
def recScores (records : List RecoveryRecord) : List ℚ :=
  (records.filter hasRecScore).map fun r => (scoreOf r).recovery_score.getD 0

/-- js truthiness filter: r.score?.hrv_rmssd_milli (absent, null and 0 are all falsy). -/
def hrvTruthy (r : RecoveryRecord) : Bool :=
  match (scoreOf r).hrv_rmssd_milli with
  | none => false
  | some v => v != 0

/-- js: records.filter(r => r.score?.hrv_rmssd_milli).map(r => r.score.hrv_rmssd_milli). -/
def hrvValues (records : List RecoveryRecord) : List ℚ :=
  (records.filter hrvTruthy).map fun r => (scoreOf r).hrv_rmssd_milli.getD 0

/-- Mutable accumulator variables of the recovery multi-day loop. -/
structure RecAgg where
  totalRec : ℚ
  totalHrv : ℚ
  totalRhr : ℚ
  totalSpo2 : ℚ
  count : ℕ
  minRec : ℚ
  maxRec : ℚ
  deriving DecidableEq, Repr

/-- Initial values: totals 0, count 0, minRec 100, maxRec 0. -/
def recInit : RecAgg := ⟨0, 0, 0, 0, 0, 100, 0⟩

/-- Body of: for (const rec of records) \x7b ... \x7d with the
continue-on-null-recovery-score guard. -/
def recStep (st : RecAgg) (r : RecoveryRecord) : RecAgg :=
  let s := scoreOf r
  match s.recovery_score with
  | none => st
  | some sc =>
    { totalRec := st.totalRec + sc
      totalHrv := st.totalHrv + s.hrv_rmssd_milli.getD 0
      totalRhr := st.totalRhr + s.resting_heart_rate.getD 0
      totalSpo2 := st.totalSpo2 + s.spo2_percentage.getD 0
      count := st.count + 1
      minRec := if sc < st.minRec then sc else st.minRec
      maxRec := if st.maxRec < sc then sc else st.maxRec }

/-- The whole accumulation loop. -/
def recAgg (records : List RecoveryRecord) : RecAgg := records.foldl recStep recInit

/-- Detected patterns, modelled as the message constructors with the
numeric payloads the source interpolates into the message text. -/
inductive Pattern where
  | lowRecovery (lowDays count : ℕ)
  | hrvDown (earlierAvg recentAvg : ℚ)
  | hrvUp (earlierAvg recentAvg : ℚ)
  | consecLowRecovery (run : ℕ)
  | lowSleepPerf (lowDays count : ℕ)
  | deepSleepDeficit (pct : ℤ)
  | highStrainStreak (run : ℕ)
  | noRestDays
  deriving DecidableEq, Repr

/-- Pattern-detection section of the recovery tool (patterns array built
in source push order). -/
def recoveryPatterns (records : List RecoveryRecord) (count : ℕ) : List Pattern :=
  let scores := recScores records
  let lowDays := (scores.filter fun r => decide (r < 50)).length
  let p1 : List Pattern :=
    if 3 ≤ lowDays then [.lowRecovery lowDays count] else []
  let hvals := hrvValues records
  let pHrv : List Pattern :=
    if 3 ≤ hvals.length then
      let firstHalf := hvals.drop (hvals.length / 2)
      let secondHalf := hvals.take (hvals.length / 2)
      let avgFirst := avgQ firstHalf
      let avgSecond := avgQ secondHalf
      (if avgSecond < avgFirst * (9/10) then [.hrvDown avgFirst avgSecond] else []) ++
      (if avgFirst * (11/10) < avgSecond then [.hrvUp avgFirst avgSecond] else [])
    else []
  let maxConsecLow := maxRun (fun s => decide (s < 50)) scores
  let p3 : List Pattern :=
    if 3 ≤ maxConsecLow then [.consecLowRecovery maxConsecLow] else []
  p1 ++ pHrv ++ p3

/-- Outcome of the recovery tool's multi-day branch: the two early-return
informational messages, or the trend report with its numbers. -/
inductive RecoveryResult where
  | noData
  | noScored
  | trend (avgRec : ℤ) (avgHrv : ℚ) (avgRhr : ℤ) (avgSpo2 : ℚ)
      (minRec maxRec : ℚ) (count : ℕ) (patterns : List Pattern)
  deriving DecidableEq, Repr

/-- Multi-day branch of the recovery tool handler. -/
def recoveryMultiDay (records : List RecoveryRecord) : RecoveryResult :=
  if records.isEmpty then .noData
  else
    let agg := recAgg records
    if agg.count = 0 then .noScored
    else
      .trend (jsRound (agg.totalRec / (agg.count : ℚ)))
        (round1 (agg.totalHrv / (agg.count : ℚ)))
        (jsRound (agg.totalRhr / (agg.count : ℚ)))
        (round1 (agg.totalSpo2 / (agg.count : ℚ)))
        agg.minRec agg.maxRec agg.count
        (recoveryPatterns records agg.count)

/-- Patterns carried by a recovery result (the early returns carry none). -/
def RecoveryResult.patterns : RecoveryResult → List Pattern
  | .trend _ _ _ _ _ _ _ ps => ps
  | _ => []

/-- Rendered average HRV, when the trend report is produced. -/
def RecoveryResult.avgHrv? : RecoveryResult → Option ℚ
  | .trend _ v _ _ _ _ _ _ => some v
  | _ => none

/-- Rendered average SpO2, when the trend report is produced. -/
def RecoveryResult.avgSpo2? : RecoveryResult → Option ℚ
  | .trend _ _ _ v _ _ _ _ => some v
  | _ => none

/-- Rendered average resting heart rate, when the trend report is produced. -/
def RecoveryResult.avgRhr? : RecoveryResult → Option ℤ
  | .trend _ _ v _ _ _ _ _ => some v
  | _ => none

/-- Rendered average recovery, when the trend report is produced. -/
def RecoveryResult.avgRec? : RecoveryResult → Option ℤ
  | .trend v _ _ _ _ _ _ _ => some v
  | _ => none

/-- Scored-day count of the report, when the trend report is produced. -/
def RecoveryResult.count? : RecoveryResult → Option ℕ
  | .trend _ _ _ _ _ _ c _ => some c
  | _ => none

/-! ## Sleep tool (src/tools/sleep.ts)

Record shapes restricted to the fields the handler reads. -/

/-- Fields of score.stage_summary read by the sleep tool. -/
structure StageSummary where
  total_in_bed_time_milli : Option ℚ
  total_awake_time_milli : Option ℚ
  total_light_sleep_time_milli : Option ℚ
  total_slow_wave_sleep_time_milli : Option ℚ
  total_rem_sleep_time_milli : Option ℚ
  deriving DecidableEq, Repr

/-- js object literal \x7b\x7d used as fallback for a missing stage summary. -/
def emptyStages : StageSummary := ⟨none, none, none, none, none⟩

/-- Fields of rec.score read by the sleep tool's numeric computations. -/
structure SleepScore where
  sleep_performance_percentage : Option ℚ
  sleep_efficiency_percentage : Option ℚ
  sleep_consistency_percentage : Option ℚ
  stage_summary : Option StageSummary
  deriving DecidableEq, Repr

/-- js object literal \x7b\x7d used as fallback for a missing score. -/
def emptySleepScore : SleepScore := ⟨none, none, none, none⟩

/-- One element of the records array returned by getSleepV2. -/
structure SleepRecord where
  score : Option SleepScore
  deriving DecidableEq, Repr

/-- js: const s = rec.score || \x7b\x7d. -/
def sleepScoreOf (r : SleepRecord) : SleepScore := r.score.getD emptySleepScore

/-- js: const st = s.stage_summary || \x7b\x7d. -/
def stagesOf (r : SleepRecord) : StageSummary :=
  (sleepScoreOf r).stage_summary.getD emptyStages

/-- js filter predicate: r.score?.sleep_performance_percentage != null. -/
def hasPerf (r : SleepRecord) : Bool :=
  (sleepScoreOf r).sleep_performance_percentage.isSome

/-- js: records.filter(perf non-null).map(r => r.score.sleep_performance_percentage). -/
def perfValues (records : List SleepRecord) : List ℚ :=
  (records.filter hasPerf).map fun r =>
    (sleepScoreOf r).sleep_performance_percentage.getD 0

/-- Per-day total sleep of the loop: (in-bed || 0) - (awake || 0). -/
def daySleepMs (r : SleepRecord) : ℚ :=
  (stagesOf r).total_in_bed_time_milli.getD 0 - (stagesOf r).total_awake_time_milli.getD 0

/-- Mutable accumulator variables of the sleep multi-day loop. -/
structure SleepAgg where
  totalPerf : ℚ
  totalEff : ℚ
  totalConsist : ℚ
  totalLightMs : ℚ
  totalDeepMs : ℚ
  totalRemMs : ℚ
  totalAwakeMs : ℚ
  totalSleepMs : ℚ
  count : ℕ
  deriving DecidableEq, Repr

/-- Initial values: all totals 0, count 0. -/
def sleepInit : SleepAgg := ⟨0, 0, 0, 0, 0, 0, 0, 0, 0⟩

/-- Body of: for (const rec of records) \x7b ... \x7d with the
continue-on-null-performance guard. -/
def sleepStep (st : SleepAgg) (r : SleepRecord) : SleepAgg :=
  let s := sleepScoreOf r
  let stg := stagesOf r
  match s.sleep_performance_percentage with
  | none => st
  | some _ =>
    { totalPerf := st.totalPerf + s.sleep_performance_percentage.getD 0
      totalEff := st.totalEff + s.sleep_efficiency_percentage.getD 0
      totalConsist := st.totalConsist + s.sleep_consistency_percentage.getD 0
      totalLightMs := st.totalLightMs + stg.total_light_sleep_time_milli.getD 0
      totalDeepMs := st.totalDeepMs + stg.total_slow_wave_sleep_time_milli.getD 0
      totalRemMs := st.totalRemMs + stg.total_rem_sleep_time_milli.getD 0
      totalAwakeMs := st.totalAwakeMs + stg.total_awake_time_milli.getD 0
      totalSleepMs := st.totalSleepMs + daySleepMs r
      count := st.count + 1 }

/-- The whole accumulation loop. -/
def sleepAgg (records : List SleepRecord) : SleepAgg := records.foldl sleepStep sleepInit

/-- js msToHoursDecimal: Math.round((ms / 3600000) * 10) / 10. -/
def msToHoursDecimal (ms : ℚ) : ℚ := round1 (ms / 3600000)

/-- js: totalSleepMs > 0 ? Math.round(totalDeepMs / totalSleepMs * 100) : 0. -/
def avgStagePct (stageMs totalSleepMs : ℚ) : ℤ :=
  if 0 < totalSleepMs then jsRound (stageMs / totalSleepMs * 100) else 0

/-- Pattern-detection section of the sleep tool. -/
def sleepPatterns (records : List SleepRecord) (count : ℕ) (avgDeepPct : ℤ) :
    List Pattern :=
  let perfs := perfValues records
  let lowPerfDays := (perfs.filter fun p => decide (p < 70)).length
  let p1 : List Pattern :=
    if 3 ≤ lowPerfDays then [.lowSleepPerf lowPerfDays count] else []
  let p2 : List Pattern :=
    if avgDeepPct < 15 then [.deepSleepDeficit avgDeepPct] else []
  p1 ++ p2

/-- Outcome of the sleep tool's multi-day branch. -/
inductive SleepResult where
  | noData
  | noScored
  | trend (avgPerf avgEff avgConsist : ℤ) (avgSleepH : ℚ)
      (avgLightPct avgDeepPct avgRemPct : ℤ) (count : ℕ) (patterns : List Pattern)
  deriving DecidableEq, Repr

/-- Multi-day branch of the sleep tool handler. -/
def sleepMultiDay (records : List SleepRecord) : SleepResult :=
  if records.isEmpty then .noData
  else
    let agg := sleepAgg records
    if agg.count = 0 then .noScored
    else
      let avgDeepPct := avgStagePct agg.totalDeepMs agg.totalSleepMs
      .trend (jsRound (agg.totalPerf / (agg.count : ℚ)))
        (jsRound (agg.totalEff / (agg.count : ℚ)))
        (jsRound (agg.totalConsist / (agg.count : ℚ)))
        (msToHoursDecimal (agg.totalSleepMs / (agg.count : ℚ)))
        (avgStagePct agg.totalLightMs agg.totalSleepMs)
        avgDeepPct
        (avgStagePct agg.totalRemMs agg.totalSleepMs)
        agg.count
        (sleepPatterns records agg.count avgDeepPct)

/-- Patterns carried by a sleep result (the early returns carry none). -/
def SleepResult.patterns : SleepResult → List Pattern
  | .trend _ _ _ _ _ _ _ _ ps => ps
  | _ => []

/-- Rendered average efficiency, when the trend report is produced. -/
def SleepResult.avgEff? : SleepResult → Option ℤ
  | .trend _ v _ _ _ _ _ _ _ => some v
  | _ => none

/-- Rendered average consistency, when the trend report is produced. -/
def SleepResult.avgConsist? : SleepResult → Option ℤ
  | .trend _ _ v _ _ _ _ _ _ => some v
  | _ => none

/-- Rendered average performance, when the trend report is produced. -/
def SleepResult.avgPerf? : SleepResult → Option ℤ
  | .trend v _ _ _ _ _ _ _ _ => some v
  | _ => none

/-! ### Single-day sleep formatter (formatSingleDay), numeric core -/

/-- Numeric values computed by formatSingleDay: the total-sleep local,
the two fallback denominators, and the four stage percentages. -/
structure SingleDayStats where
  totalSleep : ℚ
  totalMs : ℚ
  awakeDenom : ℚ
  lightPct : ℤ
  deepPct : ℤ
  remPct : ℤ
  awakePct : ℤ
  deriving DecidableEq, Repr

/-- Numeric core of formatSingleDay.  totalMs mirrors js (totalSleep || 1)
and awakeDenom mirrors (stages.total_in_bed_time_milli || 1). -/
def singleDayStats (rec : SleepRecord) : SingleDayStats :=
  let stages := stagesOf rec
  let totalSleep :=
    stages.total_in_bed_time_milli.getD 0 - stages.total_awake_time_milli.getD 0
  let totalMs := if totalSleep = 0 then 1 else totalSleep
  let awakeDenom :=
    if stages.total_in_bed_time_milli.getD 0 = 0 then 1
    else stages.total_in_bed_time_milli.getD 0
  { totalSleep := totalSleep
    totalMs := totalMs
    awakeDenom := awakeDenom
    lightPct := jsRound (stages.total_light_sleep_time_milli.getD 0 / totalMs * 100)
    deepPct := jsRound (stages.total_slow_wave_sleep_time_milli.getD 0 / totalMs * 100)
    remPct := jsRound (stages.total_rem_sleep_time_milli.getD 0 / totalMs * 100)
    awakePct := jsRound (stages.total_awake_time_milli.getD 0 / awakeDenom * 100) }

/-! ## Strain tool (multi-day branch of registerStrainTool) -/

/-- Fields of c.score read by the strain tool's trend computations. -/
structure StrainScore where
  strain : Option ℚ
  deriving DecidableEq, Repr

/-- One element of the cycles array returned by getCyclesV2. -/
structure CycleRecord where
  score : Option StrainScore
  deriving DecidableEq, Repr

/-- js: const s = c.score || \x7b\x7d. -/
def strainScoreOf (c : CycleRecord) : StrainScore := c.score.getD ⟨none⟩

/-- js filter predicate: c.score?.strain != null. -/
def hasStrain (c : CycleRecord) : Bool := (strainScoreOf c).strain.isSome

/-- js: cycles.filter(c => c.score?.strain != null).map(c => c.score.strain). -/
def strains (cycles : List CycleRecord) : List ℚ :=
  (cycles.filter hasStrain).map fun c => (strainScoreOf c).strain.getD 0

/-- Mutable accumulator variables of the strain multi-day loop. -/
structure StrainAgg where
  totalStrain : ℚ
  count : ℕ
  deriving DecidableEq, Repr

/-- Body of: for (const c of cycles) \x7b ... \x7d with the
continue-on-null-strain guard. -/
def strainStep (st : StrainAgg) (c : CycleRecord) : StrainAgg :=
  match (strainScoreOf c).strain with
  | none => st
  | some v => { totalStrain := st.totalStrain + v, count := st.count + 1 }

/-- The whole accumulation loop. -/
def strainAgg (cycles : List CycleRecord) : StrainAgg :=
  cycles.foldl strainStep ⟨0, 0⟩

/-- Pattern-detection section of the strain tool. -/
def strainPatterns (cycles : List CycleRecord) (count : ℕ) : List Pattern :=
  let svals := strains cycles
  let maxConsecHigh := maxRun (fun s => decide (14 < s)) svals
  let p1 : List Pattern :=
    if 3 ≤ maxConsecHigh then [.highStrainStreak maxConsecHigh] else []
  let restDays := (svals.filter fun s => decide (s < 4)).length
  let p2 : List Pattern :=
    if restDays = 0 ∧ 7 ≤ count then [.noRestDays] else []
  p1 ++ p2

/-- Outcome of the strain tool's multi-day branch. -/
inductive StrainResult where
  | noData
  | noScored
  | trend (avgStrain : ℚ) (count : ℕ) (patterns : List Pattern)
  deriving DecidableEq, Repr

/-- Multi-day branch of the strain tool handler. -/
def strainMultiDay (cycles : List CycleRecord) : StrainResult :=
  if cycles.isEmpty then .noData
  else
    let agg := strainAgg cycles
    if agg.count = 0 then .noScored
    else
      .trend (agg.totalStrain / (agg.count : ℚ)) agg.count
        (strainPatterns cycles agg.count)

/-- Patterns carried by a strain result (the early returns carry none). -/
def StrainResult.patterns : StrainResult → List Pattern
  | .trend _ _ ps => ps
  | _ => []

/-! ## Spec-side reference definition for averaging (claim C1)

Modelled from the spec: average = sum of non-absent samples / count of
non-absent samples, undefined when every sample is absent. -/

/-- Spec-side average over possibly-absent samples. -/
def specAverage (samples : List (Option ℚ)) : Option ℚ :=
  let present := samples.filterMap id
  if present.length = 0 then none else some (present.sum / (present.length : ℚ))

/-- Per-scored-day HRV samples of a recovery window (one sample per day
that carries a recovery score, absent when the day has no HRV value). -/
def hrvSamples (records : List RecoveryRecord) : List (Option ℚ) :=
  (records.filter hasRecScore).map fun r => (scoreOf r).hrv_rmssd_milli

/-! ## Loop characterisation lemmas -/

lemma recFold_spec (records : List RecoveryRecord) :
    ∀ st : RecAgg,
      (records.foldl recStep st).count
        = st.count + (records.filter hasRecScore).length ∧
      (records.foldl recStep st).totalRec
        = st.totalRec + ((records.filter hasRecScore).map
            fun r => (scoreOf r).recovery_score.getD 0).sum ∧
      (records.foldl recStep st).totalHrv
        = st.totalHrv + ((records.filter hasRecScore).map
            fun r => (scoreOf r).hrv_rmssd_milli.getD 0).sum ∧
      (records.foldl recStep st).totalRhr
        = st.totalRhr + ((records.filter hasRecScore).map
            fun r => (scoreOf r).resting_heart_rate.getD 0).sum ∧
      (records.foldl recStep st).totalSpo2
        = st.totalSpo2 + ((records.filter hasRecScore).map
            fun r => (scoreOf r).spo2_percentage.getD 0).sum := by
  induction records with
  | nil => intro st; simp
  | cons r rs ih =>
    intro st
    cases h : (scoreOf r).recovery_score with
    | none =>
      have hf : hasRecScore r = false := by simp [hasRecScore, h]
      have hstep : recStep st r = st := by simp [recStep, h]
      simpa only [List.foldl_cons, hstep, List.filter_cons, hf,
        Bool.false_eq_true, if_false] using ih st
    | some sc =>
      have ht : hasRecScore r = true := by simp [hasRecScore, h]
      obtain ⟨h1, h2, h3, h4, h5⟩ := ih (recStep st r)
      have hstep : (recStep st r).count = st.count + 1 ∧
          (recStep st r).totalRec = st.totalRec + sc ∧
          (recStep st r).totalHrv
            = st.totalHrv + (scoreOf r).hrv_rmssd_milli.getD 0 ∧
          (recStep st r).totalRhr
            = st.totalRhr + (scoreOf r).resting_heart_rate.getD 0 ∧
          (recStep st r).totalSpo2
            = st.totalSpo2 + (scoreOf r).spo2_percentage.getD 0 := by
        simp [recStep, h]
      simp only [List.foldl_cons, List.filter_cons, ht, if_true, List.map_cons,
        List.sum_cons, h1, h2, h3, h4, h5, hstep.1, hstep.2.1, hstep.2.2.1,
        hstep.2.2.2.1, hstep.2.2.2.2, List.length_cons, h, Option.getD_some]
      refine ⟨by omega, by ring, by ring, by ring, by ring⟩

lemma recAgg_count (records : List RecoveryRecord) :
    (recAgg records).count = (records.filter hasRecScore).length := by
  have := (recFold_spec records recInit).1
  simpa [recAgg, recInit] using this

lemma recAgg_totalHrv (records : List RecoveryRecord) :
    (recAgg records).totalHrv = ((records.filter hasRecScore).map
      fun r => (scoreOf r).hrv_rmssd_milli.getD 0).sum := by
  have := (recFold_spec records recInit).2.2.1
  simpa [recAgg, recInit] using this

lemma recAgg_totalRec (records : List RecoveryRecord) :
    (recAgg records).totalRec = ((records.filter hasRecScore).map
      fun r => (scoreOf r).recovery_score.getD 0).sum := by
  have := (recFold_spec records recInit).2.1
  simpa [recAgg, recInit] using this

lemma recAgg_totalRhr (records : List RecoveryRecord) :
    (recAgg records).totalRhr = ((records.filter hasRecScore).map
      fun r => (scoreOf r).resting_heart_rate.getD 0).sum := by
  have := (recFold_spec records recInit).2.2.2.1
  simpa [recAgg, recInit] using this

lemma recAgg_totalSpo2 (records : List RecoveryRecord) :
    (recAgg records).totalSpo2 = ((records.filter hasRecScore).map
      fun r => (scoreOf r).spo2_percentage.getD 0).sum := by
  have := (recFold_spec records recInit).2.2.2.2
  simpa [recAgg, recInit] using this

lemma recScores_length (records : List RecoveryRecord) :
    (recScores records).length = (records.filter hasRecScore).length := by
  simp [recScores]

lemma sleepFold_spec (records : List SleepRecord) :
    ∀ st : SleepAgg,
      (records.foldl sleepStep st).count
        = st.count + (records.filter hasPerf).length ∧
      (records.foldl sleepStep st).totalPerf
        = st.totalPerf + (perfValues records).sum ∧
      (records.foldl sleepStep st).totalEff
        = st.totalEff + ((records.filter hasPerf).map
            fun r => (sleepScoreOf r).sleep_efficiency_percentage.getD 0).sum ∧
      (records.foldl sleepStep st).totalConsist
        = st.totalConsist + ((records.filter hasPerf).map
            fun r => (sleepScoreOf r).sleep_consistency_percentage.getD 0).sum ∧
      (records.foldl sleepStep st).totalDeepMs
        = st.totalDeepMs + ((records.filter hasPerf).map
            fun r => (stagesOf r).total_slow_wave_sleep_time_milli.getD 0).sum ∧
      (records.foldl sleepStep st).totalSleepMs
        = st.totalSleepMs + ((records.filter hasPerf).map daySleepMs).sum := by
  induction records with
  | nil => intro st; simp [perfValues]
  | cons r rs ih =>
    intro st
    cases h : (sleepScoreOf r).sleep_performance_percentage with
    | none =>
      have hf : hasPerf r = false := by simp [hasPerf, h]
      have hstep : sleepStep st r = st := by simp [sleepStep, h]
      simpa only [List.foldl_cons, hstep, List.filter_cons, hf,
        Bool.false_eq_true, if_false, perfValues] using ih st
    | some perf =>
      have ht : hasPerf r = true := by simp [hasPerf, h]
      obtain ⟨h1, h2, h3, h4, h5, h6⟩ := ih (sleepStep st r)
      have hstep : (sleepStep st r).count = st.count + 1 ∧
          (sleepStep st r).totalPerf
            = st.totalPerf + (sleepScoreOf r).sleep_performance_percentage.getD 0 ∧
          (sleepStep st r).totalEff
            = st.totalEff + (sleepScoreOf r).sleep_efficiency_percentage.getD 0 ∧
          (sleepStep st r).totalConsist
            = st.totalConsist + (sleepScoreOf r).sleep_consistency_percentage.getD 0 ∧
          (sleepStep st r).totalDeepMs
            = st.totalDeepMs + (stagesOf r).total_slow_wave_sleep_time_milli.getD 0 ∧
          (sleepStep st r).totalSleepMs = st.totalSleepMs + daySleepMs r := by
        simp [sleepStep, h]
      simp only [List.foldl_cons, List.filter_cons, ht, if_true, List.map_cons,
        List.sum_cons, h1, h2, h3, h4, h5, h6, hstep.1, hstep.2.1, hstep.2.2.1,
        hstep.2.2.2.1, hstep.2.2.2.2.1, hstep.2.2.2.2.2, List.length_cons,
        perfValues]
      refine ⟨by omega, by ring, by ring, by ring, by ring, by ring⟩

lemma sleepAgg_count (records : List SleepRecord) :
    (sleepAgg records).count = (records.filter hasPerf).length := by
  have := (sleepFold_spec records sleepInit).1
  simpa [sleepAgg, sleepInit] using this

lemma sleepAgg_totalEff (records : List SleepRecord) :
    (sleepAgg records).totalEff = ((records.filter hasPerf).map
      fun r => (sleepScoreOf r).sleep_efficiency_percentage.getD 0).sum := by
  have := (sleepFold_spec records sleepInit).2.2.1
  simpa [sleepAgg, sleepInit] using this

lemma sleepAgg_totalConsist (records : List SleepRecord) :
    (sleepAgg records).totalConsist = ((records.filter hasPerf).map
      fun r => (sleepScoreOf r).sleep_consistency_percentage.getD 0).sum := by
  have := (sleepFold_spec records sleepInit).2.2.2.1
  simpa [sleepAgg, sleepInit] using this

lemma sleepAgg_totalDeepMs (records : List SleepRecord) :
    (sleepAgg records).totalDeepMs = ((records.filter hasPerf).map
      fun r => (stagesOf r).total_slow_wave_sleep_time_milli.getD 0).sum := by
  have := (sleepFold_spec records sleepInit).2.2.2.2.1
  simpa [sleepAgg, sleepInit] using this

lemma sleepAgg_totalSleepMs (records : List SleepRecord) :
    (sleepAgg records).totalSleepMs
      = ((records.filter hasPerf).map daySleepMs).sum := by
  have := (sleepFold_spec records sleepInit).2.2.2.2.2
  simpa [sleepAgg, sleepInit] using this

lemma perfValues_length (records : List SleepRecord) :
    (perfValues records).length = (records.filter hasPerf).length := by
  simp [perfValues]

lemma strainFold_count (cycles : List CycleRecord) :
    ∀ st : StrainAgg,
      (cycles.foldl strainStep st).count
        = st.count + (cycles.filter hasStrain).length := by
  induction cycles with
  | nil => intro st; simp
  | cons c cs ih =>
    intro st
    cases h : (strainScoreOf c).strain with
    | none =>
      have hf : hasStrain c = false := by simp [hasStrain, h]
      have hstep : strainStep st c = st := by simp [strainStep, h]
      simpa only [List.foldl_cons, hstep, List.filter_cons, hf,
        Bool.false_eq_true, if_false] using ih st
    | some v =>
      have ht : hasStrain c = true := by simp [hasStrain, h]
      have hstep : (strainStep st c).count = st.count + 1 := by
        simp [strainStep, h]
      have := ih (strainStep st c)
      simp only [List.foldl_cons, List.filter_cons, ht, if_true,
        List.length_cons, this, hstep]
      omega

lemma strainAgg_count (cycles : List CycleRecord) :
    (strainAgg cycles).count = (strains cycles).length := by
  have := strainFold_count cycles ⟨0, 0⟩
  simp only [strainAgg, this, strains, List.length_map]
  omega

/-! ## Membership characterisations of the pattern lists -/

lemma mem_recoveryPatterns_lowRecovery (records : List RecoveryRecord)
    (cnt a b : ℕ) :
    Pattern.lowRecovery a b ∈ recoveryPatterns records cnt ↔
      (a = ((recScores records).filter fun r => decide (r < 50)).length ∧
       b = cnt ∧
       3 ≤ ((recScores records).filter fun r => decide (r < 50)).length) := by
  simp only [recoveryPatterns, List.mem_append]
  split_ifs <;> simp_all

lemma mem_recoveryPatterns_consec (records : List RecoveryRecord)
    (cnt k : ℕ) :
    Pattern.consecLowRecovery k ∈ recoveryPatterns records cnt ↔
      (k = maxRun (fun s => decide (s < 50)) (recScores records) ∧
       3 ≤ maxRun (fun s => decide (s < 50)) (recScores records)) := by
  simp only [recoveryPatterns, List.mem_append]
  split_ifs <;> simp_all

lemma mem_recoveryPatterns_hrvDown (records : List RecoveryRecord)
    (cnt : ℕ) (a b : ℚ) :
    Pattern.hrvDown a b ∈ recoveryPatterns records cnt ↔
      (3 ≤ (hrvValues records).length ∧
       a = avgQ ((hrvValues records).drop ((hrvValues records).length / 2)) ∧
       b = avgQ ((hrvValues records).take ((hrvValues records).length / 2)) ∧
       avgQ ((hrvValues records).take ((hrvValues records).length / 2)) <
         avgQ ((hrvValues records).drop ((hrvValues records).length / 2)) * (9/10)) := by
  simp only [recoveryPatterns, List.mem_append]
  split_ifs <;> simp_all

lemma mem_recoveryPatterns_hrvUp (records : List RecoveryRecord)
    (cnt : ℕ) (a b : ℚ) :
    Pattern.hrvUp a b ∈ recoveryPatterns records cnt ↔
      (3 ≤ (hrvValues records).length ∧
       a = avgQ ((hrvValues records).drop ((hrvValues records).length / 2)) ∧
       b = avgQ ((hrvValues records).take ((hrvValues records).length / 2)) ∧
       avgQ ((hrvValues records).drop ((hrvValues records).length / 2)) * (11/10) <
         avgQ ((hrvValues records).take ((hrvValues records).length / 2))) := by
  simp only [recoveryPatterns, List.mem_append]
  split_ifs <;> simp_all

lemma mem_sleepPatterns_lowPerf (records : List SleepRecord)
    (cnt : ℕ) (dp : ℤ) (a b : ℕ) :
    Pattern.lowSleepPerf a b ∈ sleepPatterns records cnt dp ↔
      (a = ((perfValues records).filter fun p => decide (p < 70)).length ∧
       b = cnt ∧
       3 ≤ ((perfValues records).filter fun p => decide (p < 70)).length) := by
  simp only [sleepPatterns, List.mem_append]
  split_ifs <;> simp_all

lemma mem_sleepPatterns_deficit (records : List SleepRecord)
    (cnt : ℕ) (dp : ℤ) (k : ℤ) :
    Pattern.deepSleepDeficit k ∈ sleepPatterns records cnt dp ↔
      (k = dp ∧ dp < 15) := by
  simp only [sleepPatterns, List.mem_append]
  split_ifs <;> simp_all

lemma mem_strainPatterns_streak (cycles : List CycleRecord)
    (cnt k : ℕ) :
    Pattern.highStrainStreak k ∈ strainPatterns cycles cnt ↔
      (k = maxRun (fun s => decide (14 < s)) (strains cycles) ∧
       3 ≤ maxRun (fun s => decide (14 < s)) (strains cycles)) := by
  simp only [strainPatterns, List.mem_append]
  split_ifs <;> simp_all

lemma mem_strainPatterns_noRest (cycles : List CycleRecord) (cnt : ℕ) :
    Pattern.noRestDays ∈ strainPatterns cycles cnt ↔
      (((strains cycles).filter fun s => decide (s < 4)).length = 0 ∧
       7 ≤ cnt) := by
  simp only [strainPatterns, List.mem_append]
  split_ifs <;> simp_all

/-! ## Patterns carried by the final results -/

lemma recoveryMultiDay_mem_patterns (records : List RecoveryRecord)
    (pp : Pattern) :
    pp ∈ (recoveryMultiDay records).patterns ↔
      ((records.filter hasRecScore).length ≠ 0 ∧
       pp ∈ recoveryPatterns records (records.filter hasRecScore).length) := by
  by_cases he : records.isEmpty
  · obtain rfl : records = [] := by simpa using he
    simp [recoveryMultiDay, RecoveryResult.patterns]
  · by_cases hc : (recAgg records).count = 0
    · have h0 : (records.filter hasRecScore).length = 0 := by
        rw [← recAgg_count]; exact hc
      simp [recoveryMultiDay, he, hc, RecoveryResult.patterns, h0]
    · have h0 : (records.filter hasRecScore).length ≠ 0 := by
        rw [← recAgg_count]; exact hc
      simp [recoveryMultiDay, he, hc, RecoveryResult.patterns, h0,
        recAgg_count]

lemma sleepMultiDay_mem_patterns (records : List SleepRecord)
    (pp : Pattern) :
    pp ∈ (sleepMultiDay records).patterns ↔
      ((records.filter hasPerf).length ≠ 0 ∧
       pp ∈ sleepPatterns records (records.filter hasPerf).length
         (avgStagePct (sleepAgg records).totalDeepMs
           (sleepAgg records).totalSleepMs)) := by
  by_cases he : records.isEmpty
  · obtain rfl : records = [] := by simpa using he
    simp [sleepMultiDay, SleepResult.patterns]
  · by_cases hc : (sleepAgg records).count = 0
    · have h0 : (records.filter hasPerf).length = 0 := by
        rw [← sleepAgg_count]; exact hc
      simp [sleepMultiDay, he, hc, SleepResult.patterns, h0]
    · have h0 : (records.filter hasPerf).length ≠ 0 := by
        rw [← sleepAgg_count]; exact hc
      simp [sleepMultiDay, he, hc, SleepResult.patterns, h0, sleepAgg_count]

lemma strainMultiDay_mem_patterns (cycles : List CycleRecord)
    (pp : Pattern) :
    pp ∈ (strainMultiDay cycles).patterns ↔
      ((strains cycles).length ≠ 0 ∧
       pp ∈ strainPatterns cycles (strains cycles).length) := by
  by_cases he : cycles.isEmpty
  · obtain rfl : cycles = [] := by simpa using he
    simp [strainMultiDay, StrainResult.patterns, strains]
  · by_cases hc : (strainAgg cycles).count = 0
    · have h0 : (strains cycles).length = 0 := by
        rw [← strainAgg_count]; exact hc
      simp [strainMultiDay, he, hc, StrainResult.patterns, h0]
    · have h0 : (strains cycles).length ≠ 0 := by
        rw [← strainAgg_count]; exact hc
      simp [strainMultiDay, he, hc, StrainResult.patterns, h0, strainAgg_count]

/-! ## Order-independence of the longest-run length -/

lemma isLongestRun_unique {α : Type} {p : α → Bool} {xs : List α} {m n : ℕ}
    (hm : IsLongestRun p xs m) (hn : IsLongestRun p xs n) : m = n := by
  obtain ⟨hm1, lm, hlm1, hlm2, hlm3⟩ := hm
  obtain ⟨hn1, ln, hln1, hln2, hln3⟩ := hn
  have h1 : m ≤ n := hlm3 ▸ hn1 lm hlm1 hlm2
  have h2 : n ≤ m := hln3 ▸ hm1 ln hln1 hln2
  omega

lemma isLongestRun_reverse {α : Type} {p : α → Bool} {xs : List α} {n : ℕ}
    (h : IsLongestRun p xs n) : IsLongestRun p xs.reverse n := by
  obtain ⟨hub, l, hl1, hl2, hl3⟩ := h
  constructor
  · intro m hm hmp
    have hrev : m.reverse <:+: xs := by
      rw [← List.reverse_reverse xs]
      exact List.reverse_infix.mpr hm
    have := hub m.reverse hrev (fun a ha => hmp a (List.mem_reverse.mp ha))
    simpa using this
  · refine ⟨l.reverse, List.reverse_infix.mpr hl1,
      (fun a ha => hl2 a (List.mem_reverse.mp ha)), by simpa using hl3⟩

lemma maxRun_reverse {α : Type} (p : α → Bool) (xs : List α) :
    maxRun p xs.reverse = maxRun p xs :=
  isLongestRun_unique (maxRun_isLongestRun p xs.reverse)
    (isLongestRun_reverse (maxRun_isLongestRun p xs))

/-! ## Concrete example inputs used by the witnesses -/

/-- Recovery record carrying only a recovery score. -/
def mkRecScoreRecord (v : ℚ) : RecoveryRecord := ⟨some ⟨some v, none, none, none⟩⟩

/-- Recovery record carrying only an HRV value. -/
def mkHrvRecord (v : ℚ) : RecoveryRecord := ⟨some ⟨none, some v, none, none⟩⟩

/-- Cycle record carrying a strain value. -/
def mkStrainCycle (v : ℚ) : CycleRecord := ⟨some ⟨some v⟩⟩

/-- Sleep record carrying only a performance percentage. -/
def mkPerfRecord (v : ℚ) : SleepRecord := ⟨some ⟨some v, none, none, none⟩⟩

/-- Spec test vector for the consecutive-low-recovery rule. -/
def exC4 : List RecoveryRecord := [80, 40, 30, 20, 90, 45, 40, 35].map mkRecScoreRecord

/-- Spec test vector for the HRV trend rule (newest-first). -/
def exC3 : List RecoveryRecord := [30, 32, 34, 50, 52, 54].map mkHrvRecord

/-- Five scored days, none below strain 4. -/
def exStrainFive : List CycleRecord := [10, 10, 10, 10, 10].map mkStrainCycle

/-- Seven scored days, none below strain 4. -/
def exStrainSeven : List CycleRecord :=
  [10, 10, 10, 10, 10, 10, 10].map mkStrainCycle

/-- Three consecutive days of strain above 14. -/
def exStrainStreak : List CycleRecord := [15, 16, 17].map mkStrainCycle

/-- Three recovery-scored days all below 50. -/
def exLowRec : List RecoveryRecord := [40, 40, 40].map mkRecScoreRecord

/-- Three performance-scored nights all below 70. -/
def exLowPerf : List SleepRecord := [60, 60, 60].map mkPerfRecord

/-! ## Claim C4 -/

/-- C4: the consecutive-low-recovery rule fires exactly when the longest
run of consecutive scored days with recovery below 50 has length at least
3, the reported run length is the maximum run length over the whole series
(not the first qualifying run), and that length is invariant under
reversing the series, so chronological and newest-first order agree. -/
theorem consecutive_low_recovery_rule (records : List RecoveryRecord) (k : ℕ) :
    (Pattern.consecLowRecovery k ∈ (recoveryMultiDay records).patterns ↔
      (k = maxRun (fun s => decide (s < 50)) (recScores records) ∧
       3 ≤ maxRun (fun s => decide (s < 50)) (recScores records))) ∧
    IsLongestRun (fun s => decide (s < 50)) (recScores records)
      (maxRun (fun s => decide (s < 50)) (recScores records)) ∧
    maxRun (fun s => decide (s < 50)) (recScores records).reverse
      = maxRun (fun s => decide (s < 50)) (recScores records) := by
  refine ⟨?_, maxRun_isLongestRun _ _, maxRun_reverse _ _⟩
  rw [recoveryMultiDay_mem_patterns, mem_recoveryPatterns_consec]
  constructor
  · rintro ⟨_, h2⟩; exact h2
  · rintro ⟨rfl, h3⟩
    refine ⟨?_, rfl, h3⟩
    intro h0
    have hnil : recScores records = [] := by
      have := recScores_length records
      exact List.eq_nil_of_length_eq_zero (by omega)
    rw [hnil] at h3
    simp [maxRun, maxRunGo] at h3

/-- Witness for C4 on the spec's test vector: the longest run is 3 and the
rule fires reporting 3. -/
theorem consecutive_low_recovery_rule_witness :
    Pattern.consecLowRecovery 3 ∈ (recoveryMultiDay exC4).patterns ∧
    maxRun (fun s => decide (s < 50)) (recScores exC4) = 3 := by
  refine ⟨(consecutive_low_recovery_rule exC4 3).1.mpr ⟨by decide, by decide⟩,
    by decide⟩

/-! ## Claim C6 -/

/-- C6: the no-rest-days rule fires exactly when zero scored days have
strain below 4 and the number of scored days is at least 7. -/
theorem no_rest_days_rule (cycles : List CycleRecord) :
    Pattern.noRestDays ∈ (strainMultiDay cycles).patterns ↔
      (((strains cycles).filter fun s => decide (s < 4)).length = 0 ∧
       7 ≤ (strains cycles).length) := by
  rw [strainMultiDay_mem_patterns, mem_strainPatterns_noRest]
  constructor
  · rintro ⟨_, h2⟩; exact h2
  · rintro ⟨h1, h2⟩; exact ⟨by omega, h1, h2⟩

/-- Witness for C6: fires on a 7-day window without rest days, and does
not fire on a 5-day window without rest days. -/
theorem no_rest_days_rule_witness :
    Pattern.noRestDays ∈ (strainMultiDay exStrainSeven).patterns ∧
    Pattern.noRestDays ∉ (strainMultiDay exStrainFive).patterns := by
  constructor
  · exact (no_rest_days_rule exStrainSeven).mpr ⟨by decide, by decide⟩
  · intro h
    have h2 := ((no_rest_days_rule exStrainFive).mp h).2
    revert h2
    decide

/-! ## Claim C7 -/

/-- C7: the high-strain streak rule fires exactly when the longest run of
consecutive scored days with strain strictly above 14 has length at least
3, and the reported number equals that maximal run length. -/
theorem high_strain_streak_rule (cycles : List CycleRecord) (k : ℕ) :
    (Pattern.highStrainStreak k ∈ (strainMultiDay cycles).patterns ↔
      (k = maxRun (fun s => decide (14 < s)) (strains cycles) ∧
       3 ≤ maxRun (fun s => decide (14 < s)) (strains cycles))) ∧
    IsLongestRun (fun s => decide (14 < s)) (strains cycles)
      (maxRun (fun s => decide (14 < s)) (strains cycles)) := by
  refine ⟨?_, maxRun_isLongestRun _ _⟩
  rw [strainMultiDay_mem_patterns, mem_strainPatterns_streak]
  constructor
  · rintro ⟨_, h2⟩; exact h2
  · rintro ⟨rfl, h3⟩
    refine ⟨?_, rfl, h3⟩
    intro h0
    have hnil : strains cycles = [] := List.eq_nil_of_length_eq_zero h0
    rw [hnil] at h3
    simp [maxRun, maxRunGo] at h3

/-- Witness for C7: a 3-day streak of strain above 14 fires with run 3. -/
theorem high_strain_streak_rule_witness :
    Pattern.highStrainStreak 3 ∈ (strainMultiDay exStrainStreak).patterns := by
  exact (high_strain_streak_rule exStrainStreak 3).1.mpr ⟨by decide, by decide⟩

/-! ## Claim C8 -/

/-- C8: the low-recovery count rule fires exactly when at least 3 scored
days have recovery below 50, the low sleep-performance rule fires exactly
when at least 3 scored nights have performance below 70, and in both
cases the message payload is the count of qualifying days together with
the total count of the same scored-day population. -/
theorem low_count_rules (rrecs : List RecoveryRecord) (srecs : List SleepRecord)
    (a b c d : ℕ) :
    (Pattern.lowRecovery a b ∈ (recoveryMultiDay rrecs).patterns ↔
      (a = ((recScores rrecs).filter fun r => decide (r < 50)).length ∧
       b = (recScores rrecs).length ∧
       3 ≤ ((recScores rrecs).filter fun r => decide (r < 50)).length)) ∧
    (Pattern.lowSleepPerf c d ∈ (sleepMultiDay srecs).patterns ↔
      (c = ((perfValues srecs).filter fun p => decide (p < 70)).length ∧
       d = (perfValues srecs).length ∧
       3 ≤ ((perfValues srecs).filter fun p => decide (p < 70)).length)) := by
  constructor
  · rw [recoveryMultiDay_mem_patterns, mem_recoveryPatterns_lowRecovery,
      ← recScores_length]
    constructor
    · rintro ⟨_, h2⟩; exact h2
    · rintro ⟨h1, h2, h3⟩
      have hle := List.length_filter_le (fun r => decide (r < 50)) (recScores rrecs)
      exact ⟨by omega, h1, h2, h3⟩
  · rw [sleepMultiDay_mem_patterns, mem_sleepPatterns_lowPerf,
      ← perfValues_length]
    constructor
    · rintro ⟨_, h2⟩; exact h2
    · rintro ⟨h1, h2, h3⟩
      have hle := List.length_filter_le (fun p => decide (p < 70)) (perfValues srecs)
      exact ⟨by omega, h1, h2, h3⟩

/-- Witness for C8: three low recovery days and three low performance
nights fire the two rules with payload 3 of 3. -/
theorem low_count_rules_witness :
    Pattern.lowRecovery 3 3 ∈ (recoveryMultiDay exLowRec).patterns ∧
    Pattern.lowSleepPerf 3 3 ∈ (sleepMultiDay exLowPerf).patterns := by
  have h := low_count_rules exLowRec exLowPerf 3 3 3 3
  exact ⟨h.1.mpr ⟨by decide, by decide, by decide⟩,
    h.2.mpr ⟨by decide, by decide, by decide⟩⟩

/-! ## Claim C5 -/

/-- C5: with zero records, or with records but zero days carrying the
domain's score, the recovery and sleep tools return one of the two
explicit informational results (distinct constructors from the trend
summary) and carry an empty pattern list; the model is a total function,
so no data shape makes it throw. -/
theorem insufficient_data_rule (rrecs : List RecoveryRecord)
    (srecs : List SleepRecord) :
    ((rrecs.filter hasRecScore).length = 0 →
      (recoveryMultiDay rrecs = .noData ∨ recoveryMultiDay rrecs = .noScored) ∧
      (recoveryMultiDay rrecs).patterns = []) ∧
    ((srecs.filter hasPerf).length = 0 →
      (sleepMultiDay srecs = .noData ∨ sleepMultiDay srecs = .noScored) ∧
      (sleepMultiDay srecs).patterns = []) := by
  constructor
  · intro h
    by_cases he : rrecs.isEmpty
    · obtain rfl : rrecs = [] := by simpa using he
      simp [recoveryMultiDay, RecoveryResult.patterns]
    · have hc : (recAgg rrecs).count = 0 := by rw [recAgg_count]; exact h
      constructor
      · right
        simp [recoveryMultiDay, he, hc]
      · simp [recoveryMultiDay, he, hc, RecoveryResult.patterns]
  · intro h
    by_cases he : srecs.isEmpty
    · obtain rfl : srecs = [] := by simpa using he
      simp [sleepMultiDay, SleepResult.patterns]
    · have hc : (sleepAgg srecs).count = 0 := by rw [sleepAgg_count]; exact h
      constructor
      · right
        simp [sleepMultiDay, he, hc]
      · simp [sleepMultiDay, he, hc, SleepResult.patterns]

/-- Witness for C5 on an empty recovery window and a one-record sleep
window whose record has no score. -/
theorem insufficient_data_rule_witness :
    ((recoveryMultiDay [] = .noData ∨ recoveryMultiDay [] = .noScored) ∧
      (recoveryMultiDay []).patterns = []) ∧
    ((sleepMultiDay [⟨none⟩] = .noData ∨ sleepMultiDay [⟨none⟩] = .noScored) ∧
      (sleepMultiDay [⟨none⟩]).patterns = []) := by
  have h := insufficient_data_rule [] [⟨none⟩]
  exact ⟨h.1 (by decide), h.2 (by decide)⟩

/-! ## Claim C9 -/

/-- C9: a record with HRV present but equal to 0 is dropped from the HRV
trend rule's sample list (presence is tested by truthiness), while a
record with recovery score 0 is kept by the aggregates and count rules
(presence is tested by a null check), so zero-valued HRV and zero-valued
recovery are treated asymmetrically. -/
theorem zero_value_asymmetry (l1 l2 : List RecoveryRecord) (r : RecoveryRecord)
    (h1 : (scoreOf r).hrv_rmssd_milli = some 0)
    (h2 : (scoreOf r).recovery_score = some 0) :
    hrvValues (l1 ++ r :: l2) = hrvValues (l1 ++ l2) ∧
    recScores (l1 ++ r :: l2) = recScores l1 ++ 0 :: recScores l2 ∧
    (recAgg (l1 ++ r :: l2)).count = (recAgg (l1 ++ l2)).count + 1 := by
  have hT : hrvTruthy r = false := by simp [hrvTruthy, h1]
  have hS : hasRecScore r = true := by simp [hasRecScore, h2]
  refine ⟨?_, ?_, ?_⟩
  · simp [hrvValues, List.filter_append, List.filter_cons, hT]
  · simp [recScores, List.filter_append, List.filter_cons, hS, h2]
  · rw [recAgg_count, recAgg_count]
    simp [List.filter_append, List.filter_cons, hS]
    omega

/-- Witness for C9 at a record carrying recovery score 0 and HRV 0: it is
absent for the HRV rule and present for the recovery series. -/
theorem zero_value_asymmetry_witness :
    hrvValues [⟨some ⟨some 0, some 0, none, none⟩⟩] = [] ∧
    recScores [⟨some ⟨some 0, some 0, none, none⟩⟩] = [0] ∧
    (recAgg [⟨some ⟨some 0, some 0, none, none⟩⟩]).count = 1 := by
  have h := zero_value_asymmetry [] [] ⟨some ⟨some 0, some 0, none, none⟩⟩
    (by decide) (by decide)
  simp only [List.nil_append] at h
  refine ⟨h.1.trans (by decide), h.2.1.trans (by decide), ?_⟩
  rw [h.2.2]
  decide

/-! ## Claim C3 -/

lemma avgQ_nonneg {l : List ℚ} (h : ∀ v ∈ l, 0 ≤ v) : 0 ≤ avgQ l := by
  unfold avgQ
  apply div_nonneg (List.sum_nonneg h)
  exact_mod_cast Nat.zero_le _

/-- C3: the HRV trend rule splits the extracted newest-first sample
series at floor(length/2) into a recent front half and an earlier back
half, flags declining exactly when recentAvg < earlierAvg·0.9 and rising
exactly when recentAvg > earlierAvg·1.1 (both require at least 3 samples),
and for nonnegative samples the two strict conditions cannot both hold. -/
theorem hrv_trend_rule (records : List RecoveryRecord) (cnt : ℕ) (a b : ℚ)
    (hpos : ∀ v ∈ hrvValues records, 0 ≤ v) :
    (Pattern.hrvDown a b ∈ recoveryPatterns records cnt ↔
      (3 ≤ (hrvValues records).length ∧
       a = avgQ ((hrvValues records).drop ((hrvValues records).length / 2)) ∧
       b = avgQ ((hrvValues records).take ((hrvValues records).length / 2)) ∧
       avgQ ((hrvValues records).take ((hrvValues records).length / 2)) <
         avgQ ((hrvValues records).drop ((hrvValues records).length / 2)) * (9/10))) ∧
    (Pattern.hrvUp a b ∈ recoveryPatterns records cnt ↔
      (3 ≤ (hrvValues records).length ∧
       a = avgQ ((hrvValues records).drop ((hrvValues records).length / 2)) ∧
       b = avgQ ((hrvValues records).take ((hrvValues records).length / 2)) ∧
       avgQ ((hrvValues records).drop ((hrvValues records).length / 2)) * (11/10) <
         avgQ ((hrvValues records).take ((hrvValues records).length / 2)))) ∧
    ¬(avgQ ((hrvValues records).take ((hrvValues records).length / 2)) <
        avgQ ((hrvValues records).drop ((hrvValues records).length / 2)) * (9/10) ∧
      avgQ ((hrvValues records).drop ((hrvValues records).length / 2)) * (11/10) <
        avgQ ((hrvValues records).take ((hrvValues records).length / 2))) := by
  refine ⟨mem_recoveryPatterns_hrvDown records cnt a b,
    mem_recoveryPatterns_hrvUp records cnt a b, ?_⟩
  rintro ⟨hdown, hup⟩
  have hE : 0 ≤ avgQ ((hrvValues records).drop ((hrvValues records).length / 2)) :=
    avgQ_nonneg (fun v hv => hpos v (List.mem_of_mem_drop hv))
  linarith

/-- Witness for C3 on the spec's newest-first series [30,32,34,50,52,54]:
earlier average 52, recent average 32, declining fires. -/
theorem hrv_trend_rule_witness :
    Pattern.hrvDown 52 32 ∈ recoveryPatterns exC3 0 := by
  have hv : hrvValues exC3 = [30, 32, 34, 50, 52, 54] := by decide
  have hpos : ∀ v ∈ hrvValues exC3, 0 ≤ v := by
    rw [hv]
    decide
  refine (hrv_trend_rule exC3 0 52 32 hpos).1.mpr ?_
  rw [hv]
  norm_num [avgQ]

/-! ## Trend shape of the results when scored days exist -/

lemma recoveryMultiDay_trend (rrecs : List RecoveryRecord)
    (hr : (rrecs.filter hasRecScore).length ≠ 0) :
    recoveryMultiDay rrecs = .trend
      (jsRound ((recAgg rrecs).totalRec / ((recAgg rrecs).count : ℚ)))
      (round1 ((recAgg rrecs).totalHrv / ((recAgg rrecs).count : ℚ)))
      (jsRound ((recAgg rrecs).totalRhr / ((recAgg rrecs).count : ℚ)))
      (round1 ((recAgg rrecs).totalSpo2 / ((recAgg rrecs).count : ℚ)))
      (recAgg rrecs).minRec (recAgg rrecs).maxRec (recAgg rrecs).count
      (recoveryPatterns rrecs (recAgg rrecs).count) := by
  have hne : ¬ rrecs.isEmpty = true := by
    intro he
    obtain rfl : rrecs = [] := by simpa using he
    simp at hr
  have hc : ¬ (recAgg rrecs).count = 0 := by rw [recAgg_count]; exact hr
  simp [recoveryMultiDay, hne, hc]

lemma sleepMultiDay_trend (srecs : List SleepRecord)
    (hs : (srecs.filter hasPerf).length ≠ 0) :
    sleepMultiDay srecs = .trend
      (jsRound ((sleepAgg srecs).totalPerf / ((sleepAgg srecs).count : ℚ)))
      (jsRound ((sleepAgg srecs).totalEff / ((sleepAgg srecs).count : ℚ)))
      (jsRound ((sleepAgg srecs).totalConsist / ((sleepAgg srecs).count : ℚ)))
      (msToHoursDecimal ((sleepAgg srecs).totalSleepMs / ((sleepAgg srecs).count : ℚ)))
      (avgStagePct (sleepAgg srecs).totalLightMs (sleepAgg srecs).totalSleepMs)
      (avgStagePct (sleepAgg srecs).totalDeepMs (sleepAgg srecs).totalSleepMs)
      (avgStagePct (sleepAgg srecs).totalRemMs (sleepAgg srecs).totalSleepMs)
      (sleepAgg srecs).count
      (sleepPatterns srecs (sleepAgg srecs).count
        (avgStagePct (sleepAgg srecs).totalDeepMs (sleepAgg srecs).totalSleepMs)) := by
  have hne : ¬ srecs.isEmpty = true := by
    intro he
    obtain rfl : srecs = [] := by simpa using he
    simp at hs
  have hc : ¬ (sleepAgg srecs).count = 0 := by rw [sleepAgg_count]; exact hs
  simp [sleepMultiDay, hne, hc]

/-! ## Claim C1 -/

/-- First counterexample window: two recovery-scored days, HRV present on
exactly one of them. -/
def exC1a : List RecoveryRecord :=
  [⟨some ⟨some 50, some 30, none, none⟩⟩, ⟨some ⟨some 50, none, none, none⟩⟩]

/-- Second counterexample window: two recovery-scored days, HRV absent on
both. -/
def exC1b : List RecoveryRecord :=
  [⟨some ⟨some 50, none, none, none⟩⟩, ⟨some ⟨some 50, none, none, none⟩⟩]

/-- C1 counterexample: on a 2-day window with recovery scored on both days
and HRV = 30 present on only one, the claimed non-absent average is 30 but
the tool reports 15 (the absent sample is defaulted to 0 and the
denominator is the recovery-scored-day count); on a window whose HRV is
absent on every scored day the tool reports the number 0, not an
undefined placeholder. -/
theorem metric_average_counterexample :
    (recoveryMultiDay exC1a).avgHrv? = some 15 ∧
    specAverage (hrvSamples exC1a) = some 30 ∧
    ((15 : ℚ) ≠ 30) ∧
    (recoveryMultiDay exC1b).avgHrv? = some 0 ∧
    specAverage (hrvSamples exC1b) = none := by
  have h1 : recAgg exC1a = ⟨100, 30, 0, 0, 2, 50, 50⟩ := by
    norm_num [recAgg, exC1a, recInit, recStep, scoreOf]
  have h2 : recAgg exC1b = ⟨100, 0, 0, 0, 2, 50, 50⟩ := by
    norm_num [recAgg, exC1b, recInit, recStep, scoreOf]
  refine ⟨?_, ?_, by norm_num, ?_, ?_⟩
  · simp only [recoveryMultiDay, h1]
    norm_num [exC1a, RecoveryResult.avgHrv?, round1, jsRound]
  · norm_num [specAverage, hrvSamples, exC1a, hasRecScore, scoreOf,
      List.filterMap_cons]
  · simp only [recoveryMultiDay, h2]
    norm_num [exC1b, RecoveryResult.avgHrv?, round1, jsRound]
  · norm_num [specAverage, hrvSamples, exC1b, hasRecScore, scoreOf,
      List.filterMap_cons]

/-- C1 amended: every secondary-metric average (HRV, resting heart rate,
SpO2 on the recovery tool; efficiency, consistency on the sleep tool) is
the sum over primary-scored days with absent values contributing 0,
divided by the number of primary-scored days; a secondary metric absent
on every scored day therefore averages to the number 0. -/
theorem metric_average_amended (rrecs : List RecoveryRecord)
    (srecs : List SleepRecord)
    (hr : (rrecs.filter hasRecScore).length ≠ 0)
    (hs : (srecs.filter hasPerf).length ≠ 0) :
    (recoveryMultiDay rrecs).avgHrv?
      = some (round1 (((rrecs.filter hasRecScore).map
          fun r => (scoreOf r).hrv_rmssd_milli.getD 0).sum
          / ((rrecs.filter hasRecScore).length : ℚ))) ∧
    (recoveryMultiDay rrecs).avgRhr?
      = some (jsRound (((rrecs.filter hasRecScore).map
          fun r => (scoreOf r).resting_heart_rate.getD 0).sum
          / ((rrecs.filter hasRecScore).length : ℚ))) ∧
    (recoveryMultiDay rrecs).avgSpo2?
      = some (round1 (((rrecs.filter hasRecScore).map
          fun r => (scoreOf r).spo2_percentage.getD 0).sum
          / ((rrecs.filter hasRecScore).length : ℚ))) ∧
    (sleepMultiDay srecs).avgEff?
      = some (jsRound (((srecs.filter hasPerf).map
          fun r => (sleepScoreOf r).sleep_efficiency_percentage.getD 0).sum
          / ((srecs.filter hasPerf).length : ℚ))) ∧
    (sleepMultiDay srecs).avgConsist?
      = some (jsRound (((srecs.filter hasPerf).map
          fun r => (sleepScoreOf r).sleep_consistency_percentage.getD 0).sum
          / ((srecs.filter hasPerf).length : ℚ))) ∧
    ((∀ r ∈ rrecs.filter hasRecScore, (scoreOf r).hrv_rmssd_milli = none) →
      (recoveryMultiDay rrecs).avgHrv? = some 0) := by
  have hrtrend := recoveryMultiDay_trend rrecs hr
  have hstrend := sleepMultiDay_trend srecs hs
  have hHrv : (recoveryMultiDay rrecs).avgHrv?
      = some (round1 (((rrecs.filter hasRecScore).map
          fun r => (scoreOf r).hrv_rmssd_milli.getD 0).sum
          / ((rrecs.filter hasRecScore).length : ℚ))) := by
    rw [hrtrend, RecoveryResult.avgHrv?, recAgg_totalHrv, recAgg_count]
  refine ⟨hHrv, ?_, ?_, ?_, ?_, ?_⟩
  · rw [hrtrend, RecoveryResult.avgRhr?, recAgg_totalRhr, recAgg_count]
  · rw [hrtrend, RecoveryResult.avgSpo2?, recAgg_totalSpo2, recAgg_count]
  · rw [hstrend, SleepResult.avgEff?, sleepAgg_totalEff, sleepAgg_count]
  · rw [hstrend, SleepResult.avgConsist?, sleepAgg_totalConsist, sleepAgg_count]
  · intro hall
    rw [hHrv]
    have hz : ((rrecs.filter hasRecScore).map
        fun r => (scoreOf r).hrv_rmssd_milli.getD 0).sum = 0 := by
      apply List.sum_eq_zero
      intro x hx
      obtain ⟨r, hr2, rfl⟩ := List.mem_map.mp hx
      rw [hall r hr2]
      rfl
    rw [hz]
    norm_num [round1, jsRound]

/-- One recovery-scored day with HRV 30, used to instantiate C1. -/
def exAmend1 : List RecoveryRecord := [⟨some ⟨some 50, some 30, none, none⟩⟩]

/-- One performance-scored night, used to instantiate C1. -/
def exAmend2 : List SleepRecord := [mkPerfRecord 80]

/-- Witness for the amended C1 at a 1-day window with HRV 30. -/
theorem metric_average_amended_witness :
    (recoveryMultiDay exAmend1).avgHrv? = some 30 := by
  have h := (metric_average_amended exAmend1 exAmend2 (by decide) (by decide)).1
  rw [h]
  norm_num [exAmend1, hasRecScore, scoreOf, round1, jsRound]

/-! ## Claim C2 -/

/-- Counterexample window: one scored night, 1024 ms total sleep of which
150 ms deep, i.e. a raw deep-sleep fraction of about 14.65%. -/
def exC2 : List SleepRecord :=
  [⟨some ⟨some 100, none, none, some ⟨some 1024, some 0, none, some 150, none⟩⟩⟩]

/-- C2 counterexample: the window deep-sleep percentage 150/1024·100 is
below 15%, yet no deep-sleep-deficit pattern fires, because the rule
compares the rounded integer percentage (here 15) with 15. -/
theorem deep_sleep_deficit_counterexample :
    (150 : ℚ) / 1024 * 100 < 15 ∧
    (sleepMultiDay exC2).patterns = [] := by
  have hagg : sleepAgg exC2 = ⟨100, 0, 0, 0, 150, 0, 0, 1024, 1⟩ := by
    norm_num [sleepAgg, exC2, sleepInit, sleepStep, sleepScoreOf, stagesOf,
      daySleepMs]
  constructor
  · norm_num
  · simp only [sleepMultiDay, hagg]
    norm_num [SleepResult.patterns, sleepPatterns, perfValues, exC2, hasPerf,
      sleepScoreOf, avgStagePct, jsRound]

/-- C2 amended: over scored nights the deep-sleep value is computed
sum-then-divide (sum of per-day deep milliseconds over sum of per-day
total-sleep milliseconds), and the rule fires exactly when the rounded
integer percentage Math.round(100·sum/sum) is below 15, reporting that
rounded percentage. -/
theorem deep_sleep_deficit_amended (records : List SleepRecord) (k : ℤ)
    (hS : 0 < ((records.filter hasPerf).map daySleepMs).sum) :
    Pattern.deepSleepDeficit k ∈ (sleepMultiDay records).patterns ↔
      (k = jsRound (((records.filter hasPerf).map
            fun r => (stagesOf r).total_slow_wave_sleep_time_milli.getD 0).sum
          / ((records.filter hasPerf).map daySleepMs).sum * 100) ∧
       jsRound (((records.filter hasPerf).map
            fun r => (stagesOf r).total_slow_wave_sleep_time_milli.getD 0).sum
          / ((records.filter hasPerf).map daySleepMs).sum * 100) < 15) := by
  have hlen : (records.filter hasPerf).length ≠ 0 := by
    intro h0
    rw [List.eq_nil_of_length_eq_zero h0] at hS
    simp at hS
  have hdp : avgStagePct (sleepAgg records).totalDeepMs (sleepAgg records).totalSleepMs
      = jsRound (((records.filter hasPerf).map
            fun r => (stagesOf r).total_slow_wave_sleep_time_milli.getD 0).sum
          / ((records.filter hasPerf).map daySleepMs).sum * 100) := by
    rw [sleepAgg_totalDeepMs, sleepAgg_totalSleepMs]
    unfold avgStagePct
    rw [if_pos hS]
  rw [sleepMultiDay_mem_patterns, mem_sleepPatterns_deficit, hdp]
  tauto

/-- The spec's 2-day window: 100 min in bed with 10 min deep, then 5 min
in bed with 0 min deep (milliseconds). -/
def exC2w : List SleepRecord :=
  [⟨some ⟨some 80, none, none, some ⟨some 6000000, some 0, none, some 600000, none⟩⟩⟩,
   ⟨some ⟨some 80, none, none, some ⟨some 300000, some 0, none, some 0, none⟩⟩⟩]

/-- Witness for the amended C2 on the spec's 2-day window: the value is
round(100·600000/6300000) = round(200/21) = 10 (sum-then-divide, about
9.5%), not the 5% average of per-day ratios, and the rule fires. -/
theorem deep_sleep_deficit_amended_witness :
    Pattern.deepSleepDeficit 10 ∈ (sleepMultiDay exC2w).patterns ∧
    (600000 : ℚ) / 6300000 * 100 = 200 / 21 ∧
    ((200 : ℚ) / 21 ≠ ((10 : ℚ)/100 + 0/100) / 2 * 100) := by
  have hS : 0 < ((exC2w.filter hasPerf).map daySleepMs).sum := by
    norm_num [exC2w, hasPerf, sleepScoreOf, daySleepMs, stagesOf]
  have hsum1 : ((exC2w.filter hasPerf).map
      fun r => (stagesOf r).total_slow_wave_sleep_time_milli.getD 0).sum
      = 600000 := by
    norm_num [exC2w, hasPerf, sleepScoreOf, stagesOf]
  have hsum2 : ((exC2w.filter hasPerf).map daySleepMs).sum = 6300000 := by
    norm_num [exC2w, hasPerf, sleepScoreOf, stagesOf, daySleepMs]
  refine ⟨(deep_sleep_deficit_amended exC2w 10 hS).mpr ?_, by norm_num, by norm_num⟩
  rw [hsum1, hsum2]
  norm_num [jsRound]

/-! ## Claim C10 -/

/-- Counterexample record: 1000 ms in bed, 1000 ms awake (so total sleep
0) but 500 ms recorded light sleep. -/
def exC10 : SleepRecord :=
  ⟨some ⟨some 90, none, none, some ⟨some 1000, some 1000, some 500, none, none⟩⟩⟩

/-- C10 counterexample: with total sleep 0 the fallback denominator 1 is
used, but the light percentage is 50000, not 0. -/
theorem single_day_formatter_counterexample :
    (singleDayStats exC10).totalSleep = 0 ∧
    (singleDayStats exC10).lightPct = 50000 ∧
    ((50000 : ℤ) ≠ 0) := by
  norm_num [singleDayStats, exC10, stagesOf, sleepScoreOf, jsRound]

/-- C10 amended: the single-day formatter is total; both stage-percentage
denominators are never 0 (when total sleep is 0 the stage percentages use
denominator 1, yielding Math.round(stageMs·100), which is 0 only when the
stage duration is 0; when in-bed time is 0 or absent the awake percentage
uses denominator 1), so no percentage is ever NaN or infinite. -/
theorem single_day_formatter_amended (rec : SleepRecord) :
    (singleDayStats rec).totalMs ≠ 0 ∧
    (singleDayStats rec).awakeDenom ≠ 0 ∧
    ((singleDayStats rec).totalSleep = 0 →
      (singleDayStats rec).totalMs = 1 ∧
      (singleDayStats rec).lightPct
        = jsRound ((stagesOf rec).total_light_sleep_time_milli.getD 0 * 100) ∧
      (singleDayStats rec).deepPct
        = jsRound ((stagesOf rec).total_slow_wave_sleep_time_milli.getD 0 * 100) ∧
      (singleDayStats rec).remPct
        = jsRound ((stagesOf rec).total_rem_sleep_time_milli.getD 0 * 100)) ∧
    ((stagesOf rec).total_in_bed_time_milli.getD 0 = 0 →
      (singleDayStats rec).awakeDenom = 1) := by
  refine ⟨?_, ?_, ?_, ?_⟩
  · simp only [singleDayStats]
    split_ifs with h
    · exact one_ne_zero
    · exact h
  · simp only [singleDayStats]
    split_ifs with h
    · exact one_ne_zero
    · exact h
  · intro h0
    simp only [singleDayStats] at h0 ⊢
    rw [if_pos h0]
    refine ⟨rfl, ?_, ?_, ?_⟩ <;> rw [div_one]
  · intro h0
    simp only [singleDayStats]
    rw [if_pos h0]

/-- Witness for the amended C10 at the zero-total-sleep record: the
denominator falls back to 1. -/
theorem single_day_formatter_amended_witness :
    (singleDayStats exC10).totalMs = 1 := by
  have h0 : (singleDayStats exC10).totalSleep = 0 := by
    norm_num [singleDayStats, exC10, stagesOf, sleepScoreOf]
  exact ((single_day_formatter_amended exC10).2.2.1 h0).1
